import Mathlib

/-!
Shallow embedding of the weather_app client (src/main.js) in Lean 4.

The program is a browser client that validates a city name,
resolves it to coordinates via a geocoding HTTP endpoint, fetches the
current temperature via a forecast HTTP endpoint, and caches the
assembled reading in an in-memory map keyed by the lowercased city,
with a fixed 300,000 ms TTL.

Modelling decisions, each noted at the relevant definition:
- HTTP responses become explicit data (`GeoResponse`, `WeatherResponse`)
  passed to the embedded functions; one response value per outbound call.
- `Date.now()` becomes an explicit epoch-milliseconds parameter; the two
  reads inside `getTemperature` (one in the cache lookup, one at the
  cache store) become two parameters `tCheck` and `tStore`.
- The JS `Map` becomes an association list with JS `Map` semantics:
  `set` updates in place preserving insertion order or appends,
  `get` finds the unique entry, `delete` removes it.
- JS numbers carrying latitude/longitude/temperature are only moved
  around, never computed with, so they are modelled as `Rat`.
- Thrown `Error` values become `Except` with one constructor per
  distinct `throw` site.
-/

deriving instance DecidableEq for Except

namespace WeatherApp

/-- CONFIG.CACHE_DURATION: 5 * 60 * 1000 ms (src/main.js line 14). -/
def CACHE_DURATION : Nat := 5 * 60 * 1000

/-- The JS whitespace class: the characters matched by `\s` in a JS
regex and stripped by `String.prototype.trim` (both use the same
WhiteSpace ∪ LineTerminator set). -/
def isJsWhitespace (c : Char) : Bool :=
  c = ' ' || c = '\t' || c = '\n' || c = '\r' ||
  c.toNat = 0xb || c.toNat = 0xc || c.toNat = 0xa0 || c.toNat = 0x1680 ||
  (0x2000 ≤ c.toNat && c.toNat ≤ 0x200a) ||
  c.toNat = 0x2028 || c.toNat = 0x2029 || c.toNat = 0x202f ||
  c.toNat = 0x205f || c.toNat = 0x3000 || c.toNat = 0xfeff

/-- JS `String.prototype.trim`: strip leading and trailing whitespace. -/
def jsTrim (s : String) : String :=
  String.mk (((s.data.dropWhile isJsWhitespace).reverse.dropWhile isJsWhitespace).reverse)

/-- JS `String.prototype.toLowerCase`, restricted to the alphabet this
application works over (ASCII letters plus the German capitals Ä, Ö, Ü
admitted by the validator); other characters are left unchanged. -/
def jsCharToLower (c : Char) : Char :=
  if 65 ≤ c.toNat && c.toNat ≤ 90 then Char.ofNat (c.toNat + 32)
  else if c = 'Ä' then 'ä'
  else if c = 'Ö' then 'ö'
  else if c = 'Ü' then 'ü'
  else c

/-- Lowercasing of a whole string, character by character. -/
def jsToLowerCase (s : String) : String :=
  String.mk (s.data.map jsCharToLower)

/-- The character class of the validation regex
`/^[a-zA-ZäöüÄÖÜß\s\-]+$/` (src/main.js line 145). -/
def allowedChar (c : Char) : Bool :=
  ('a' ≤ c && c ≤ 'z') || ('A' ≤ c && c ≤ 'Z') ||
  c = 'ä' || c = 'ö' || c = 'ü' || c = 'Ä' || c = 'Ö' || c = 'Ü' || c = 'ß' ||
  isJsWhitespace c || c = '-'

/-- `regex.test(s)` for `/^[a-zA-ZäöüÄÖÜß\s\-]+$/`: at least one
character, and every character in the class. -/
def cityRegexTest (s : String) : Bool :=
  !s.data.isEmpty && s.data.all allowedChar

/-- The four distinct `throw` sites of `Validation.validateCity`,
named after the spec taxonomy (§7). -/
inductive ValidationError
  | emptyInput
  | tooShort
  | tooLong
  | invalidChars
deriving DecidableEq, Repr

/-- `Validation.validateCity` (src/main.js lines 129-150): trim, then
empty / too-short / too-long / character checks in order, returning the
trimmed string on success. String length is counted in characters; for
every character the validator can accept this agrees with JS UTF-16
`.length`. -/
def validateCity (city : String) : Except ValidationError String :=
  if jsTrim city = "" then .error .emptyInput
  else if (jsTrim city).length < 2 then .error .tooShort
  else if (jsTrim city).length > 50 then .error .tooLong
  else if !cityRegexTest (jsTrim city) then .error .invalidChars
  else .ok (jsTrim city)

/-- One geocoding result object, as in the geocoding endpoint's JSON
`results` array. `country` is `none` when the field is absent
(`data.results[0].country || ''` in the source). -/
structure GeoResult where
  latitude : Rat
  longitude : Rat
  name : String
  country : Option String
deriving DecidableEq, Repr

/-- The geocoding HTTP response as `API.getCoordinates` observes it:
`ok`/`status` from the HTTP layer, and the parsed `results` field,
`none` when the body has no `results` key. -/
structure GeoResponse where
  ok : Bool
  status : Nat
  results : Option (List GeoResult)
deriving DecidableEq, Repr

/-- The `current` object of the forecast response body;
`temperature_2m` is `none` when the field is `undefined`. -/
structure WeatherCurrent where
  temperature_2m : Option Rat
deriving DecidableEq, Repr

/-- The forecast HTTP response as `API.getWeather` observes it. -/
structure WeatherResponse where
  ok : Bool
  status : Nat
  current : Option WeatherCurrent
deriving DecidableEq, Repr

/-- The distinct `throw` sites of `API.getCoordinates` and
`API.getWeather`, named after the spec taxonomy (§7): geocoding
transport error, city not found, weather transport error, weather data
unavailable. Each carries what the thrown message interpolates. -/
inductive ApiError
  | geoTransport (status : Nat)
  | cityNotFound (city : String)
  | weatherTransport (status : Nat)
  | dataUnavailable
deriving DecidableEq, Repr

/-- The coordinates object `API.getCoordinates` returns
(src/main.js lines 175-180). -/
structure Coordinates where
  latitude : Rat
  longitude : Rat
  name : String
  country : String
deriving DecidableEq, Repr

/-- `API.getCoordinates` (src/main.js lines 160-181), with the fetched
response passed in explicitly: non-ok status throws, absent or empty
`results` throws city-not-found, otherwise the first result is
projected, with `country || ''` defaulting an absent country to "". -/
def getCoordinates (city : String) (resp : GeoResponse) : Except ApiError Coordinates :=
  if !resp.ok then .error (.geoTransport resp.status)
  else
    match resp.results with
    | none => .error (.cityNotFound city)
    | some [] => .error (.cityNotFound city)
    | some (r :: _) => .ok ⟨r.latitude, r.longitude, r.name, r.country.getD ""⟩

/-- `API.getWeather` (src/main.js lines 186-202), with the fetched
response passed in explicitly: non-ok status throws, missing `current`
or missing `current.temperature_2m` throws, otherwise the temperature
is returned unmodified. -/
def getWeather (resp : WeatherResponse) : Except ApiError Rat :=
  if !resp.ok then .error (.weatherTransport resp.status)
  else
    match resp.current with
    | none => .error .dataUnavailable
    | some cur =>
      match cur.temperature_2m with
      | none => .error .dataUnavailable
      | some t => .ok t

/-- The object `getTemperature` builds and caches:
`{city: location.name, country: location.country, temperature}`
(src/main.js lines 227-231); `temperature` is the Celsius value the
provider reported. -/
structure TemperatureReading where
  city : String
  country : String
  temperature : Rat
deriving DecidableEq, Repr

/-- One entry of the cache `Map`: the stored value plus the
`Date.now()` timestamp at which it was stored (src/main.js lines
36-41). -/
structure CacheEntry where
  value : TemperatureReading
  timestamp : Nat
deriving DecidableEq, Repr

/-- The cache `Map` as an insertion-ordered association list. All
operations below preserve key uniqueness, mirroring JS `Map`. -/
abbrev CacheMap := List (String × CacheEntry)

/-- JS `Map.prototype.get`: the entry under exactly the given key. -/
def mapGet : CacheMap → String → Option CacheEntry
  | [], _ => none
  | p :: rest, key => if p.1 = key then some p.2 else mapGet rest key

/-- JS `Map.prototype.set`: update in place preserving insertion
order, or append a new entry. -/
def mapSet : CacheMap → String → CacheEntry → CacheMap
  | [], key, e => [(key, e)]
  | p :: rest, key, e => if p.1 = key then (key, e) :: rest else p :: mapSet rest key e

/-- JS `Map.prototype.delete` (keys are unique, so removing the first
match removes the key entirely). -/
def mapDelete : CacheMap → String → CacheMap
  | [], _ => []
  | p :: rest, key => if p.1 = key then rest else p :: mapDelete rest key

namespace Cache

/-- `Cache.set` (src/main.js lines 36-41): store the value under the
key as given, stamped with the current time. -/
def set (m : CacheMap) (key : String) (value : TemperatureReading) (now : Nat) : CacheMap :=
  mapSet m key ⟨value, now⟩

/-- `Cache.get` (src/main.js lines 43-54): look up the key as given;
missing entry yields `none`; an entry older than `CACHE_DURATION` is
deleted and yields `none`; otherwise the stored value is returned.
Returns the possibly-updated map alongside the result. The age test
`Date.now() - item.timestamp > CONFIG.CACHE_DURATION` is computed in
`Int` as JS subtraction can go negative. -/
def get (m : CacheMap) (key : String) (now : Nat) : Option TemperatureReading × CacheMap :=
  match mapGet m key with
  | none => (none, m)
  | some item =>
    if (now : Int) - (item.timestamp : Int) > (CACHE_DURATION : Int)
    then (none, mapDelete m key)
    else (some item.value, m)

/-- `Cache.clear` (src/main.js lines 56-58). -/
def clear : CacheMap := []

end Cache

/-- One outbound network call, recording the request data: the city
string sent to the geocoding endpoint, or the coordinates interpolated
into the forecast URL. -/
inductive NetEvent
  | geo (city : String)
  | weather (latitude longitude : Rat)
deriving DecidableEq, Repr

/-- What one `API.getTemperature` run produces: its return value or
thrown error, the cache state it leaves behind, and the ordered list of
network calls it issued. -/
structure GetTempResult where
  result : Except ApiError TemperatureReading
  cache : CacheMap
  trace : List NetEvent
deriving DecidableEq, Repr

/-- `API.getTemperature` (src/main.js lines 207-242): check the cache
under the lowercased city (`Cache.get` may lazily delete an expired
entry); on hit return the cached reading with no network call; on miss
call geocoding then weather strictly in sequence, assemble the reading,
store it under the lowercased city, and return it. Errors propagate
unchanged (the catch block only logs and rethrows). `tCheck` and
`tStore` are the `Date.now()` values read inside the lookup and the
store. -/
def getTemperature (city : String) (geoResp : GeoResponse) (wxResp : WeatherResponse)
    (m : CacheMap) (tCheck tStore : Nat) : GetTempResult :=
  match (Cache.get m (jsToLowerCase city) tCheck).1 with
  | some cached => ⟨.ok cached, (Cache.get m (jsToLowerCase city) tCheck).2, []⟩
  | none =>
    match getCoordinates city geoResp with
    | .error e => ⟨.error e, (Cache.get m (jsToLowerCase city) tCheck).2, [.geo city]⟩
    | .ok location =>
      match getWeather wxResp with
      | .error e =>
        ⟨.error e, (Cache.get m (jsToLowerCase city) tCheck).2,
         [.geo city, .weather location.latitude location.longitude]⟩
      | .ok temperature =>
        ⟨.ok ⟨location.name, location.country, temperature⟩,
         Cache.set (Cache.get m (jsToLowerCase city) tCheck).2 (jsToLowerCase city)
           ⟨location.name, location.country, temperature⟩ tStore,
         [.geo city, .weather location.latitude location.longitude]⟩

/-- Number of geocoding calls in a trace. -/
def geoCallCount (tr : List NetEvent) : Nat :=
  (tr.filter fun e => match e with | .geo _ => true | _ => false).length

/-- Number of weather calls in a trace. -/
def weatherCallCount (tr : List NetEvent) : Nat :=
  (tr.filter fun e => match e with | .weather _ _ => true | _ => false).length

/-- The keys present in a cache map. -/
def mapKeys (m : CacheMap) : List String :=
  m.map (fun p => p.1)

/-! ### Validator theorems -/

/-- C4: for every raw input string, `validate` fails with `EmptyInput`
exactly when the trimmed string is empty, with `TooShort` exactly when
the trimmed string is nonempty of length below 2, and with `TooLong`
exactly when the trimmed length exceeds 50; the three iffs together
encode that the checks apply in this order. -/
theorem validateCity_length_checks (s : String) :
    (validateCity s = .error .emptyInput ↔ jsTrim s = "") ∧
    (validateCity s = .error .tooShort ↔ (jsTrim s ≠ "" ∧ (jsTrim s).length < 2)) ∧
    (validateCity s = .error .tooLong ↔ (jsTrim s).length > 50) := by
  unfold validateCity
  split_ifs with h1 h2 h3 h4 <;> simp_all
  omega

/-- C5: when the trimmed input passes the length checks, `validate`
fails with `InvalidCharacters` exactly when some trimmed character is
outside the allowed class, and succeeds with the trimmed string when
every character is allowed. -/
theorem validateCity_invalidChars (s : String)
    (hlo : 2 ≤ (jsTrim s).length) (hhi : (jsTrim s).length ≤ 50) :
    (validateCity s = .error .invalidChars ↔ ∃ c ∈ (jsTrim s).data, allowedChar c = false) ∧
    ((jsTrim s).data.all allowedChar = true → validateCity s = .ok (jsTrim s)) := by
  have hne : jsTrim s ≠ "" := by
    intro h
    rw [h] at hlo
    simp [String.length] at hlo
  have hnil : (jsTrim s).data.isEmpty = false := by
    cases hmk : jsTrim s with
    | mk data =>
      cases data with
      | nil => exact absurd hmk hne
      | cons c cs => rfl
  unfold validateCity cityRegexTest
  rw [if_neg hne, if_neg (by omega), if_neg (by omega), hnil]
  simp only [Bool.not_false, Bool.true_and]
  constructor
  · constructor
    · intro h
      by_cases hall : (jsTrim s).data.all allowedChar = true
      · rw [hall] at h
        simp at h
      · rw [List.all_eq_true] at hall
        push_neg at hall
        rcases hall with ⟨c, hc, hcf⟩
        exact ⟨c, hc, by simpa using hcf⟩
    · intro ⟨c, hc, hcf⟩
      have hfalse : (jsTrim s).data.all allowedChar = false := by
        simp only [Bool.eq_false_iff, ne_eq, List.all_eq_true]
        push_neg
        exact ⟨c, hc, by simp [hcf]⟩
      rw [hfalse]
      simp
  · intro hall
    rw [hall]
    simp

/-- C5 witness at the concrete input "Berlin". -/
theorem validateCity_invalidChars_witness :
    validateCity "Berlin" = .ok "Berlin" :=
  (validateCity_invalidChars "Berlin" (by decide) (by decide)).2 (by decide)

/-- C6: on success `validate` returns exactly the whitespace-trimmed
input, and in particular `validate("  Berlin  ")` returns `"Berlin"`;
the embedded validator is a pure function of the input string. -/
theorem validateCity_returns_trimmed :
    (∀ s r, validateCity s = .ok r → r = jsTrim s) ∧
    validateCity "  Berlin  " = .ok "Berlin" := by
  constructor
  · intro s r h
    unfold validateCity at h
    split_ifs at h
    injection h with h
    exact h.symm
  · decide

/-- C6 witness: the general part applied at the concrete input. -/
theorem validateCity_returns_trimmed_witness :
    "Berlin" = jsTrim "  Berlin  " :=
  validateCity_returns_trimmed.1 "  Berlin  " "Berlin" validateCity_returns_trimmed.2

/-- C10: `validate` accepts interior whitespace other than a space:
the input "a\tb", whose trimmed form contains a tab between letters,
validates successfully and is returned unchanged. -/
theorem validateCity_accepts_interior_tab :
    validateCity "a\tb" = .ok "a\tb" ∧ '\t' ∈ "a\tb".data ∧ jsTrim "a\tb" = "a\tb" := by
  decide

/-! ### Cache theorems -/

/-- C3 counterexample data: a fresh entry stored under the lowercase
key "berlin". -/
def c3entry : CacheEntry := ⟨⟨"Berlin", "Germany", 5⟩, 0⟩

/-- C3 counterexample data: a cache holding `c3entry` under "berlin". -/
def c3cache : CacheMap := [("berlin", c3entry)]

/-- C3 counterexample: an entry for the normalized (lowercased) key
"berlin" exists and is fresh (`now - storedAt ≤ TTL` at `now = 0`), yet
`Cache.get` called with the key "Berlin" returns absent — so `Cache.get`
does not look up the normalized key; it looks up the key exactly as
given. -/
theorem cacheGet_does_not_normalize :
    mapGet c3cache (jsToLowerCase "Berlin") = some c3entry ∧
    ((0 : Int) - (c3entry.timestamp : Int) ≤ (CACHE_DURATION : Int)) ∧
    (Cache.get c3cache "Berlin" 0).1 = none := by
  refine ⟨rfl, by decide, rfl⟩

/-- C3 amended: `Cache.get` looks up the key exactly as passed
(normalization is the caller's responsibility). For every map, key and
time: a missing key yields absent and leaves the map unchanged; a
present entry is returned iff `now - storedAt ≤ TTL` (leaving the map
unchanged), and is deleted with absent returned iff it is expired. -/
theorem cacheGet_characterization (m : CacheMap) (key : String) (now : Nat) :
    (mapGet m key = none → Cache.get m key now = (none, m)) ∧
    (∀ e, mapGet m key = some e →
      (((now : Int) - (e.timestamp : Int) ≤ (CACHE_DURATION : Int)) →
        Cache.get m key now = (some e.value, m)) ∧
      (((now : Int) - (e.timestamp : Int) > (CACHE_DURATION : Int)) →
        Cache.get m key now = (none, mapDelete m key))) := by
  unfold Cache.get
  constructor
  · intro h
    rw [h]
  · intro e h
    rw [h]
    dsimp only
    constructor
    · intro hle
      rw [if_neg (by omega)]
    · intro hgt
      rw [if_pos hgt]

/-- C3 amended witness: the characterization applied at the concrete
fresh entry and at a missing key. -/
theorem cacheGet_characterization_witness :
    Cache.get c3cache "berlin" 0 = (some c3entry.value, c3cache) ∧
    Cache.get c3cache "paris" 0 = (none, c3cache) :=
  ⟨((cacheGet_characterization c3cache "berlin" 0).2 c3entry rfl).1 (by decide),
   (cacheGet_characterization c3cache "paris" 0).1 rfl⟩

/-! ### Structural lemmas about one `getTemperature` run -/

/-- The entry just stored by `mapSet` is found by `mapGet`. -/
theorem mapGet_mapSet_self (m : CacheMap) (key : String) (e : CacheEntry) :
    mapGet (mapSet m key e) key = some e := by
  induction m with
  | nil => simp [mapSet, mapGet]
  | cons p rest ih =>
    unfold mapSet
    by_cases h : p.1 = key
    · rw [if_pos h]
      unfold mapGet
      rw [if_pos rfl]
    · rw [if_neg h]
      unfold mapGet
      rw [if_neg h]
      exact ih

/-- The map component returned by `Cache.get` is the input map, or the
input map with an expired entry for the queried key deleted. -/
theorem cacheGet_snd_cases (m : CacheMap) (key : String) (now : Nat) :
    (Cache.get m key now).2 = m ∨
    (∃ entry, mapGet m key = some entry ∧
      ((now : Int) - (entry.timestamp : Int) > (CACHE_DURATION : Int)) ∧
      (Cache.get m key now).2 = mapDelete m key) := by
  unfold Cache.get
  cases h : mapGet m key with
  | none => exact Or.inl rfl
  | some entry =>
    dsimp only
    by_cases hexp : (now : Int) - (entry.timestamp : Int) > (CACHE_DURATION : Int)
    · exact Or.inr ⟨entry, rfl, hexp, by rw [if_pos hexp]⟩
    · exact Or.inl (by rw [if_neg hexp])

/-- Inversion of a successful `getCoordinates`: the response had a
success status and a nonempty results list, and the coordinates are
the projection of its head. -/
theorem getCoordinates_ok_inv (city : String) (geo : GeoResponse) (location : Coordinates)
    (h : getCoordinates city geo = .ok location) :
    geo.ok = true ∧ ∃ r rs, geo.results = some (r :: rs) ∧
      location = ⟨r.latitude, r.longitude, r.name, r.country.getD ""⟩ := by
  unfold getCoordinates at h
  split_ifs at h with hnot
  have hok : geo.ok = true := by
    revert hnot
    cases geo.ok <;> simp
  refine ⟨hok, ?_⟩
  cases hr : geo.results with
  | none =>
    rw [hr] at h
    exact absurd h (by simp)
  | some l =>
    cases l with
    | nil =>
      rw [hr] at h
      exact absurd h (by simp)
    | cons r rs =>
      rw [hr] at h
      dsimp only at h
      injection h with h2
      exact ⟨r, rs, rfl, h2.symm⟩

/-- Exhaustive case analysis of one `getTemperature` run: a cache hit
with empty trace, a geocoding failure, a weather failure, or full
success storing the assembled reading. -/
theorem getTemperature_run_cases (city : String) (geo : GeoResponse) (wx : WeatherResponse)
    (m : CacheMap) (tCheck tStore : Nat) :
    (∃ v, (Cache.get m (jsToLowerCase city) tCheck).1 = some v ∧
      getTemperature city geo wx m tCheck tStore
        = ⟨.ok v, (Cache.get m (jsToLowerCase city) tCheck).2, []⟩) ∨
    ((Cache.get m (jsToLowerCase city) tCheck).1 = none ∧
      ∃ e, getCoordinates city geo = .error e ∧
      getTemperature city geo wx m tCheck tStore
        = ⟨.error e, (Cache.get m (jsToLowerCase city) tCheck).2, [.geo city]⟩) ∨
    ((Cache.get m (jsToLowerCase city) tCheck).1 = none ∧
      ∃ location, getCoordinates city geo = .ok location ∧
      ((∃ e, getWeather wx = .error e ∧
        getTemperature city geo wx m tCheck tStore
          = ⟨.error e, (Cache.get m (jsToLowerCase city) tCheck).2,
             [.geo city, .weather location.latitude location.longitude]⟩) ∨
       (∃ temp, getWeather wx = .ok temp ∧
        getTemperature city geo wx m tCheck tStore
          = ⟨.ok ⟨location.name, location.country, temp⟩,
             Cache.set (Cache.get m (jsToLowerCase city) tCheck).2 (jsToLowerCase city)
               ⟨location.name, location.country, temp⟩ tStore,
             [.geo city, .weather location.latitude location.longitude]⟩))) := by
  cases hc : (Cache.get m (jsToLowerCase city) tCheck).1 with
  | some v =>
    exact Or.inl ⟨v, rfl, by unfold getTemperature; rw [hc]⟩
  | none =>
    cases hg : getCoordinates city geo with
    | error e =>
      exact Or.inr (Or.inl ⟨rfl, e, rfl, by unfold getTemperature; rw [hc, hg]⟩)
    | ok location =>
      refine Or.inr (Or.inr ⟨rfl, location, rfl, ?_⟩)
      cases hw : getWeather wx with
      | error e =>
        exact Or.inl ⟨e, rfl, by unfold getTemperature; rw [hc, hg, hw]⟩
      | ok temp =>
        exact Or.inr ⟨temp, rfl, by unfold getTemperature; rw [hc, hg, hw]⟩

/-! ### Orchestrator theorems -/

/-- C2 counterexample data: a cache holding an entry stored at time 0
under "berlin". -/
def c2cache : CacheMap := [("berlin", ⟨⟨"Berlin", "Germany", 5⟩, 0⟩)]

/-- C2 counterexample data: a geocoding response with a non-success
HTTP status. -/
def c2geoFail : GeoResponse := ⟨false, 500, none⟩

/-- C2 counterexample data: a well-formed weather response. -/
def c2wx : WeatherResponse := ⟨true, 200, some ⟨some 9⟩⟩

/-- C2 counterexample: at time 300001 the cached entry (stored at 0)
is expired, so the cache lookup inside `getTemperature` deletes it;
the call then fails with a geocoding `TransportError`, and the cache
after the failing call is empty — not exactly as it was before. -/
theorem getTemperature_error_mutates_cache :
    (getTemperature "Berlin" c2geoFail c2wx c2cache 300001 300001).result
      = .error (.geoTransport 500) ∧
    (getTemperature "Berlin" c2geoFail c2wx c2cache 300001 300001).cache = [] ∧
    (getTemperature "Berlin" c2geoFail c2wx c2cache 300001 300001).cache ≠ c2cache := by
  refine ⟨rfl, rfl, ?_⟩
  intro h
  rw [show (getTemperature "Berlin" c2geoFail c2wx c2cache 300001 300001).cache = [] from rfl]
    at h
  exact List.cons_ne_nil _ _ h.symm

/-- C2 amended: when `getTemperature` fails with any
`GeocodingError` or `WeatherError`, no cache entry is added or
overwritten: the final cache is exactly the map component of the
initial `Cache.get` lookup, which either equals the cache before the
call or is the cache with an expired entry for the lowercased city
lazily deleted. -/
theorem getTemperature_error_no_entry_added
    (city : String) (geo : GeoResponse) (wx : WeatherResponse)
    (m : CacheMap) (tCheck tStore : Nat) (e : ApiError)
    (herr : (getTemperature city geo wx m tCheck tStore).result = .error e) :
    (getTemperature city geo wx m tCheck tStore).cache
      = (Cache.get m (jsToLowerCase city) tCheck).2 ∧
    ((getTemperature city geo wx m tCheck tStore).cache = m ∨
      (∃ entry, mapGet m (jsToLowerCase city) = some entry ∧
        ((tCheck : Int) - (entry.timestamp : Int) > (CACHE_DURATION : Int)) ∧
        (getTemperature city geo wx m tCheck tStore).cache
          = mapDelete m (jsToLowerCase city))) := by
  have hsnd : (getTemperature city geo wx m tCheck tStore).cache
      = (Cache.get m (jsToLowerCase city) tCheck).2 := by
    rcases getTemperature_run_cases city geo wx m tCheck tStore with
      ⟨v, _, hrun⟩ | ⟨_, e2, _, hrun⟩ | ⟨_, location, _, ⟨e2, _, hrun⟩ | ⟨temp, _, hrun⟩⟩
    · rw [hrun] at herr
      exact absurd herr (by simp)
    · rw [hrun]
    · rw [hrun]
    · rw [hrun] at herr
      exact absurd herr (by simp)
  refine ⟨hsnd, ?_⟩
  rcases cacheGet_snd_cases m (jsToLowerCase city) tCheck with hid | ⟨entry, hent, hexp, hdel⟩
  · exact Or.inl (hsnd.trans hid)
  · exact Or.inr ⟨entry, hent, hexp, hsnd.trans hdel⟩

/-- C2 amended witness: a not-found failure against an empty cache
leaves the cache empty. -/
theorem getTemperature_error_no_entry_added_witness :
    (getTemperature "Nowhere" ⟨true, 200, some []⟩ c2wx [] 0 0).cache = [] ∧
    ((getTemperature "Nowhere" ⟨true, 200, some []⟩ c2wx [] 0 0).cache = [] ∨
      (∃ entry, mapGet [] (jsToLowerCase "Nowhere") = some entry ∧
        ((0 : Int) - (entry.timestamp : Int) > (CACHE_DURATION : Int)) ∧
        (getTemperature "Nowhere" ⟨true, 200, some []⟩ c2wx [] 0 0).cache
          = mapDelete [] (jsToLowerCase "Nowhere"))) :=
  getTemperature_error_no_entry_added "Nowhere" ⟨true, 200, some []⟩ c2wx [] 0 0
    (.cityNotFound "Nowhere") rfl

/-- C8: the network calls of one `getTemperature` run are strictly
sequential: the trace is empty (cache hit), just the geocoding call
(geocoding failed), or the geocoding call followed by one weather call
whose coordinates are exactly the latitude and longitude of the first
geocoding result; a weather call never occurs without a preceding
successful geocoding call. -/
theorem getTemperature_sequential_calls (city : String) (geo : GeoResponse)
    (wx : WeatherResponse) (m : CacheMap) (tCheck tStore : Nat) :
    (getTemperature city geo wx m tCheck tStore).trace = [] ∨
    (getTemperature city geo wx m tCheck tStore).trace = [.geo city] ∨
    (∃ r rs, geo.ok = true ∧ geo.results = some (r :: rs) ∧
      (getTemperature city geo wx m tCheck tStore).trace
        = [.geo city, .weather r.latitude r.longitude]) := by
  rcases getTemperature_run_cases city geo wx m tCheck tStore with
    ⟨v, _, hrun⟩ | ⟨_, e2, _, hrun⟩ | ⟨_, location, hg, ⟨e2, _, hrun⟩ | ⟨temp, _, hrun⟩⟩
  · exact Or.inl (by rw [hrun])
  · exact Or.inr (Or.inl (by rw [hrun]))
  · rcases getCoordinates_ok_inv city geo location hg with ⟨hok, r, rs, hres, hloc⟩
    exact Or.inr (Or.inr ⟨r, rs, hok, hres, by rw [hrun, hloc]⟩)
  · rcases getCoordinates_ok_inv city geo location hg with ⟨hok, r, rs, hres, hloc⟩
    exact Or.inr (Or.inr ⟨r, rs, hok, hres, by rw [hrun, hloc]⟩)

/-- Evaluation helper: a success geocoding response with first result
`r` resolves to the projection of `r`. -/
theorem getCoordinates_ok_eval (city : String) (geo : GeoResponse) (r : GeoResult)
    (rs : List GeoResult) (hok : geo.ok = true) (hres : geo.results = some (r :: rs)) :
    getCoordinates city geo = .ok ⟨r.latitude, r.longitude, r.name, r.country.getD ""⟩ := by
  unfold getCoordinates
  rw [hok, hres]
  rfl

/-- Evaluation helper: a success weather response carrying a present
temperature yields exactly that temperature. -/
theorem getWeather_ok_eval (wx : WeatherResponse) (temp : Rat)
    (hok : wx.ok = true) (hcur : wx.current = some ⟨some temp⟩) :
    getWeather wx = .ok temp := by
  unfold getWeather
  rw [hok, hcur]
  rfl

/-- C7: on a cache miss, when geocoding returns a success status with
first result `r` and the weather response carries temperature `temp`,
`getTemperature` returns the reading assembled from `r`'s display
name, `r`'s country (empty string when absent), and `temp`
unmodified. -/
theorem getTemperature_assembles_reading
    (city : String) (geo : GeoResponse) (wx : WeatherResponse) (m : CacheMap)
    (tCheck tStore : Nat) (r : GeoResult) (rs : List GeoResult) (temp : Rat)
    (hmiss : (Cache.get m (jsToLowerCase city) tCheck).1 = none)
    (hgok : geo.ok = true) (hres : geo.results = some (r :: rs))
    (hwok : wx.ok = true) (hcur : wx.current = some ⟨some temp⟩) :
    (getTemperature city geo wx m tCheck tStore).result
      = .ok ⟨r.name, r.country.getD "", temp⟩ := by
  unfold getTemperature
  rw [hmiss, getCoordinates_ok_eval city geo r rs hgok hres,
    getWeather_ok_eval wx temp hwok hcur]

/-- The geocoding response of the spec's concrete Berlin scenario. -/
def geoBerlin : GeoResponse :=
  ⟨true, 200, some [⟨52.52, 13.405, "Berlin", some "Germany"⟩]⟩

/-- The weather response of the spec's concrete Berlin scenario. -/
def wxBerlin : WeatherResponse := ⟨true, 200, some ⟨some 9.3⟩⟩

/-- C7 witness: the concrete Berlin scenario yields
`{city: "Berlin", country: "Germany", temperature: 9.3}`. -/
theorem getTemperature_assembles_reading_witness :
    (getTemperature "Berlin" geoBerlin wxBerlin [] 0 0).result
      = .ok ⟨"Berlin", "Germany", 9.3⟩ :=
  getTemperature_assembles_reading "Berlin" geoBerlin wxBerlin [] 0 0
    ⟨52.52, 13.405, "Berlin", some "Germany"⟩ [] 9.3 rfl rfl rfl rfl rfl

/-- C1: starting from a cache miss, if the first `getTemperature` call
succeeds with some reading and the second call happens within the TTL
window of the stored timestamp, then the second call returns the
identical cached reading, performs no network call, leaves the cache
unchanged, and the two calls together issue exactly one geocoding call
and one weather call in total. -/
theorem getTemperature_idempotent_within_ttl
    (city : String) (geo geo2 : GeoResponse) (wx wx2 : WeatherResponse)
    (m0 : CacheMap) (t1 t2 : Nat) (reading : TemperatureReading)
    (hmiss : (Cache.get m0 (jsToLowerCase city) t1).1 = none)
    (hok : (getTemperature city geo wx m0 t1 t1).result = .ok reading)
    (hTTL : (t2 : Int) - (t1 : Int) ≤ (CACHE_DURATION : Int)) :
    (getTemperature city geo2 wx2 (getTemperature city geo wx m0 t1 t1).cache t2 t2).result
      = .ok reading ∧
    (getTemperature city geo2 wx2 (getTemperature city geo wx m0 t1 t1).cache t2 t2).cache
      = (getTemperature city geo wx m0 t1 t1).cache ∧
    (getTemperature city geo2 wx2 (getTemperature city geo wx m0 t1 t1).cache t2 t2).trace
      = [] ∧
    geoCallCount ((getTemperature city geo wx m0 t1 t1).trace
      ++ (getTemperature city geo2 wx2 (getTemperature city geo wx m0 t1 t1).cache t2 t2).trace)
      = 1 ∧
    weatherCallCount ((getTemperature city geo wx m0 t1 t1).trace
      ++ (getTemperature city geo2 wx2 (getTemperature city geo wx m0 t1 t1).cache t2 t2).trace)
      = 1 := by
  rcases getTemperature_run_cases city geo wx m0 t1 t1 with
    ⟨v, hhit, hrun⟩ | ⟨_, e2, _, hrun⟩ | ⟨_, location, hg, ⟨e2, _, hrun⟩ | ⟨temp, hw, hrun⟩⟩
  · rw [hhit] at hmiss
    exact absurd hmiss (by simp)
  · rw [hrun] at hok
    exact absurd hok (by simp)
  · rw [hrun] at hok
    exact absurd hok (by simp)
  · rw [hrun] at hok
    dsimp only at hok
    injection hok with hok
    subst hok
    have hfound := mapGet_mapSet_self (Cache.get m0 (jsToLowerCase city) t1).2
      (jsToLowerCase city) ⟨⟨location.name, location.country, temp⟩, t1⟩
    have hget2 := ((cacheGet_characterization
      (Cache.set (Cache.get m0 (jsToLowerCase city) t1).2 (jsToLowerCase city)
        ⟨location.name, location.country, temp⟩ t1)
      (jsToLowerCase city) t2).2 ⟨⟨location.name, location.country, temp⟩, t1⟩ hfound).1
      (by simpa using hTTL)
    rw [hrun]
    dsimp only
    unfold getTemperature
    rw [hget2]
    dsimp only
    refine ⟨rfl, rfl, rfl, ?_, ?_⟩ <;> rfl

/-- C1 witness: the concrete Berlin scenario, first call at time 0,
second call at time 100 against the cache the first call produced. -/
theorem getTemperature_idempotent_within_ttl_witness :
    (getTemperature "Berlin" geoBerlin wxBerlin
        (getTemperature "Berlin" geoBerlin wxBerlin [] 0 0).cache 100 100).result
      = .ok ⟨"Berlin", "Germany", 9.3⟩ ∧
    (getTemperature "Berlin" geoBerlin wxBerlin
        (getTemperature "Berlin" geoBerlin wxBerlin [] 0 0).cache 100 100).cache
      = (getTemperature "Berlin" geoBerlin wxBerlin [] 0 0).cache ∧
    (getTemperature "Berlin" geoBerlin wxBerlin
        (getTemperature "Berlin" geoBerlin wxBerlin [] 0 0).cache 100 100).trace = [] ∧
    geoCallCount ((getTemperature "Berlin" geoBerlin wxBerlin [] 0 0).trace
      ++ (getTemperature "Berlin" geoBerlin wxBerlin
          (getTemperature "Berlin" geoBerlin wxBerlin [] 0 0).cache 100 100).trace) = 1 ∧
    weatherCallCount ((getTemperature "Berlin" geoBerlin wxBerlin [] 0 0).trace
      ++ (getTemperature "Berlin" geoBerlin wxBerlin
          (getTemperature "Berlin" geoBerlin wxBerlin [] 0 0).cache 100 100).trace) = 1 :=
  getTemperature_idempotent_within_ttl "Berlin" geoBerlin geoBerlin wxBerlin wxBerlin [] 0 100
    ⟨"Berlin", "Germany", 9.3⟩ rfl rfl (by decide)

/-! ### Lowercase-key invariant (C9) -/

/-- Codepoints below the surrogate range survive `Char.ofNat`
unchanged. -/
theorem char_toNat_ofNat_valid {n : Nat} (h : n < 55296) : (Char.ofNat n).toNat = n := by
  unfold Char.ofNat
  rw [dif_pos (Or.inl h)]
  rfl

/-- A character failing all four lowering tests is fixed by
`jsCharToLower`. -/
theorem jsCharToLower_skip (d : Char)
    (h1 : ¬(65 ≤ d.toNat ∧ d.toNat ≤ 90)) (h2 : d ≠ 'Ä') (h3 : d ≠ 'Ö') (h4 : d ≠ 'Ü') :
    jsCharToLower d = d := by
  unfold jsCharToLower
  rw [if_neg (by simpa using h1), if_neg h2, if_neg h3, if_neg h4]

/-- `jsCharToLower` is idempotent: its output is never a character it
would change. -/
theorem jsCharToLower_idem (c : Char) :
    jsCharToLower (jsCharToLower c) = jsCharToLower c := by
  by_cases h1 : (65 ≤ c.toNat && c.toNat ≤ 90) = true
  · have hd : jsCharToLower c = Char.ofNat (c.toNat + 32) := by
      unfold jsCharToLower
      rw [if_pos h1]
    simp only [Bool.and_eq_true, decide_eq_true_eq] at h1
    have hv : (Char.ofNat (c.toNat + 32)).toNat = c.toNat + 32 :=
      char_toNat_ofNat_valid (by omega)
    have hAe : ('Ä').toNat = 196 := by decide
    have hOe : ('Ö').toNat = 214 := by decide
    have hUe : ('Ü').toNat = 220 := by decide
    rw [hd]
    apply jsCharToLower_skip
    · rw [hv]
      omega
    · intro he
      rw [he, hAe] at hv
      omega
    · intro he
      rw [he, hOe] at hv
      omega
    · intro he
      rw [he, hUe] at hv
      omega
  · by_cases h2 : c = 'Ä'
    · rw [h2]
      decide
    · by_cases h3 : c = 'Ö'
      · rw [h3]
        decide
      · by_cases h4 : c = 'Ü'
        · rw [h4]
          decide
        · have hd : jsCharToLower c = c :=
            jsCharToLower_skip c (by simpa using h1) h2 h3 h4
          rw [hd]
          exact hd

/-- `jsToLowerCase` is idempotent, so every key `getTemperature`
writes is a fixed point of lowercasing. -/
theorem jsToLowerCase_idem (s : String) :
    jsToLowerCase (jsToLowerCase s) = jsToLowerCase s := by
  unfold jsToLowerCase
  congr 1
  show (s.data.map jsCharToLower).map jsCharToLower = s.data.map jsCharToLower
  rw [List.map_map]
  exact List.map_congr_left fun c _ => by
    simp only [Function.comp_apply]
    exact jsCharToLower_idem c

/-- Deleting a key only removes keys. -/
theorem mapKeys_mapDelete_sub (m : CacheMap) (key k : String)
    (h : k ∈ mapKeys (mapDelete m key)) : k ∈ mapKeys m := by
  induction m with
  | nil => simp [mapDelete, mapKeys] at h
  | cons p rest ih =>
    unfold mapDelete at h
    by_cases hp : p.1 = key
    · rw [if_pos hp] at h
      exact List.mem_cons_of_mem _ h
    · rw [if_neg hp] at h
      rcases List.mem_cons.mp h with hk | hk
      · exact List.mem_cons.mpr (Or.inl hk)
      · exact List.mem_cons_of_mem _ (ih hk)

/-- Setting a key adds at most that key. -/
theorem mapKeys_mapSet_sub (m : CacheMap) (key k : String) (e : CacheEntry)
    (h : k ∈ mapKeys (mapSet m key e)) : k ∈ mapKeys m ∨ k = key := by
  induction m with
  | nil =>
    simp only [mapSet, mapKeys, List.map_cons, List.map_nil] at h
    exact Or.inr (List.mem_singleton.mp h)
  | cons p rest ih =>
    unfold mapSet at h
    by_cases hp : p.1 = key
    · rw [if_pos hp] at h
      rcases List.mem_cons.mp h with hk | hk
      · exact Or.inr hk
      · exact Or.inl (List.mem_cons_of_mem _ hk)
    · rw [if_neg hp] at h
      rcases List.mem_cons.mp h with hk | hk
      · exact Or.inl (List.mem_cons.mpr (Or.inl hk))
      · rcases ih hk with hk2 | hk2
        · exact Or.inl (List.mem_cons_of_mem _ hk2)
        · exact Or.inr hk2

/-- The map left behind by a `Cache.get` lookup has no keys beyond the
input map's. -/
theorem cacheGet_snd_keys_sub (m : CacheMap) (key : String) (now : Nat) (k : String)
    (h : k ∈ mapKeys (Cache.get m key now).2) : k ∈ mapKeys m := by
  rcases cacheGet_snd_cases m key now with hid | ⟨entry, _, _, hdel⟩
  · rw [hid] at h
    exact h
  · rw [hdel] at h
    exact mapKeys_mapDelete_sub m key k h

/-- A successful `getCoordinates` does not depend on the city string
(it only labels the not-found error), so the same response resolves the
same for any city; a failing one fails for any city. -/
theorem getCoordinates_result_shape (city city2 : String) (geo : GeoResponse) :
    (∀ l, getCoordinates city geo = .ok l → getCoordinates city2 geo = .ok l) ∧
    (∀ e, getCoordinates city geo = .error e → ∃ e2, getCoordinates city2 geo = .error e2) := by
  unfold getCoordinates
  by_cases hok : (!geo.ok) = true
  · rw [if_pos hok, if_pos hok]
    exact ⟨fun l h => absurd h (by simp), fun e _ => ⟨_, rfl⟩⟩
  · rw [if_neg hok, if_neg hok]
    cases geo.results with
    | none => exact ⟨fun l h => absurd h (by simp), fun e _ => ⟨_, rfl⟩⟩
    | some l =>
      cases l with
      | nil => exact ⟨fun l h => absurd h (by simp), fun e _ => ⟨_, rfl⟩⟩
      | cons r rs => exact ⟨fun l h => h, fun e h => absurd h (by simp)⟩

/-- C9: every cache access of `getTemperature` keys on the lowercased
input city. Consequently (a) two calls whose inputs differ only in
letter case leave identical caches, (b) they succeed with the same
reading (only the not-found error retains the original casing), and
(c) when every key of the cache is a fixed point of lowercasing, so is
every key after the call — the cache only ever holds lowercase keys. -/
theorem getTemperature_lowercase_cache_key
    (city city2 : String) (geo : GeoResponse) (wx : WeatherResponse)
    (m : CacheMap) (tCheck tStore : Nat)
    (hcase : jsToLowerCase city = jsToLowerCase city2)
    (hkeys : ∀ k ∈ mapKeys m, jsToLowerCase k = k) :
    (getTemperature city geo wx m tCheck tStore).cache
      = (getTemperature city2 geo wx m tCheck tStore).cache ∧
    (∀ reading, ((getTemperature city geo wx m tCheck tStore).result = .ok reading ↔
      (getTemperature city2 geo wx m tCheck tStore).result = .ok reading)) ∧
    (∀ k ∈ mapKeys (getTemperature city geo wx m tCheck tStore).cache,
      jsToLowerCase k = k) := by
  have hmain : (getTemperature city geo wx m tCheck tStore).cache
      = (getTemperature city2 geo wx m tCheck tStore).cache ∧
      ∀ reading, ((getTemperature city geo wx m tCheck tStore).result = .ok reading ↔
        (getTemperature city2 geo wx m tCheck tStore).result = .ok reading) := by
    unfold getTemperature
    rw [← hcase]
    cases hc : (Cache.get m (jsToLowerCase city) tCheck).1 with
    | some v => exact ⟨rfl, fun reading => Iff.rfl⟩
    | none =>
      cases hg : getCoordinates city geo with
      | error e =>
        rcases (getCoordinates_result_shape city city2 geo).2 e hg with ⟨e2, hg2⟩
        rw [hg2]
        exact ⟨rfl, fun reading => by simp⟩
      | ok location =>
        have hg2 := (getCoordinates_result_shape city city2 geo).1 location hg
        rw [hg2]
        cases hw : getWeather wx with
        | error e => exact ⟨rfl, fun reading => Iff.rfl⟩
        | ok temp => exact ⟨rfl, fun reading => Iff.rfl⟩
  refine ⟨hmain.1, hmain.2, ?_⟩
  intro k hk
  rcases getTemperature_run_cases city geo wx m tCheck tStore with
    ⟨v, _, hrun⟩ | ⟨_, e2, _, hrun⟩ | ⟨_, location, hg, ⟨e2, _, hrun⟩ | ⟨temp, _, hrun⟩⟩ <;>
    rw [hrun] at hk
  · exact hkeys k (cacheGet_snd_keys_sub m (jsToLowerCase city) tCheck k hk)
  · exact hkeys k (cacheGet_snd_keys_sub m (jsToLowerCase city) tCheck k hk)
  · exact hkeys k (cacheGet_snd_keys_sub m (jsToLowerCase city) tCheck k hk)
  · rcases mapKeys_mapSet_sub _ (jsToLowerCase city) k _ hk with hk2 | hk2
    · exact hkeys k (cacheGet_snd_keys_sub m (jsToLowerCase city) tCheck k hk2)
    · rw [hk2]
      exact jsToLowerCase_idem city

/-- C9 witness: "Berlin" and "BERLIN" lowercase to the same key, an
empty cache has only lowercase keys, and the theorem applies. -/
theorem getTemperature_lowercase_cache_key_witness :
    (getTemperature "Berlin" geoBerlin wxBerlin [] 0 0).cache
      = (getTemperature "BERLIN" geoBerlin wxBerlin [] 0 0).cache ∧
    (∀ reading, ((getTemperature "Berlin" geoBerlin wxBerlin [] 0 0).result = .ok reading ↔
      (getTemperature "BERLIN" geoBerlin wxBerlin [] 0 0).result = .ok reading)) ∧
    (∀ k ∈ mapKeys (getTemperature "Berlin" geoBerlin wxBerlin [] 0 0).cache,
      jsToLowerCase k = k) :=
  getTemperature_lowercase_cache_key "Berlin" "BERLIN" geoBerlin wxBerlin [] 0 0
    (by decide) (fun k hk => absurd hk (by simp [mapKeys]))

end WeatherApp

